import Mathlib

/-!
Shallow embedding of the LifeQuest progression engine (`src/App.js`).

The React component keeps a single `playerStats` aggregate and mutates it
through `setPlayerStats(prev => ...)` updaters.  Each updater is a pure
function on the aggregate; we embed every updater as a Lean function on a
`PlayerStats` record.  JS numbers holding integral values are modelled as
`Int` (all the arithmetic the engine performs on them is exact integer
arithmetic, `Math.floor(n * 1.5)` included, since `n * 1.5 = n * 3 / 2`
is exact for the magnitudes involved).  ISO calendar-day strings and
epoch-millisecond timestamps are modelled as `Int` day numbers and `Int`
milliseconds; `null` becomes `Option.none`.

Side effects that do not touch the aggregate (Firestore writes, sounds,
`showMessage` toasts, LLM calls) are dropped.  When one handler enqueues
further `setPlayerStats` updaters (achievement scans, the streak check),
React applies them after the current updater; we model this by ordinary
function composition, in the source's call order.
-/

namespace LifeQuest

/-- The `type` discriminator of achievements and of `checkAchievements`
calls in `App.js` (`'objectiveCompleted'`, `'levelUp'`, `'streak'`,
`'pomodoroCompleted'`, `'dailyDesireCompleted'`, `'subtaskCompleted'`). -/
inductive TriggerType where
  | objectiveCompleted
  | levelUp
  | streak
  | pomodoroCompleted
  | dailyDesireCompleted
  | subtaskCompleted
deriving DecidableEq, Repr

/-- One `satisfactionHistory` entry `{date, value}`; the ISO day string is
modelled as an `Int` day number. -/
structure SatEntry where
  date : Int
  value : Int
deriving DecidableEq, Repr

/-- The `playerStats` aggregate (`App.js` lines 43-59). -/
@[ext] structure PlayerStats where
  level : Int
  xp : Int
  xpToNextLevel : Int
  gold : Int
  vitality : Int
  maxVitality : Int
  currentSatisfaction : Int
  satisfactionHistory : List SatEntry
  lastDailyRewardClaim : Option Int
  currentStreak : Int
  lastStreakDate : Option Int
  achievements : List String
  hasCompletedTutorial : Bool
  pomodoroCount : Int
  dailyDesireCount : Int
deriving DecidableEq, Repr

/-- The initial `playerStats` value (`App.js` lines 43-59). -/
def initialPlayerStats : PlayerStats where
  level := 1
  xp := 0
  xpToNextLevel := 100
  gold := 0
  vitality := 100
  maxVitality := 100
  currentSatisfaction := 50
  satisfactionHistory := []
  lastDailyRewardClaim := none
  currentStreak := 0
  lastStreakDate := none
  achievements := []
  hasCompletedTutorial := false
  pomodoroCount := 0
  dailyDesireCount := 0

/-- An objective document; only the fields the progression engine reads
are kept (`description`, `difficulty`, `createdAt`, `completedAt`,
`dueDate` are display/metadata-only). -/
@[ext] structure Objective where
  id : String
  name : String
  isCurrent : Bool
  isCompleted : Bool
  currentProgress : Int
  totalProgress : Int
  xpReward : Int
deriving DecidableEq, Repr

/-- A subtask document (`handleAddSubtask`, `App.js` lines 553-579);
`dueDate`/`createdAt`/`isPunishment` are metadata the engine never reads. -/
@[ext] structure Subtask where
  id : String
  text : String
  isCompleted : Bool
  xpReward : Int
  goldReward : Int
  progressContribution : Int
deriving DecidableEq, Repr

/-- The body of the `while (newXp >= newXpToNextLevel)` level-up loop of
`addXp` (`App.js` lines 291-298), written with explicit fuel so that it is
structurally recursive and kernel-computable.  `levelUpLoop` below supplies
fuel that provably suffices whenever `0 < nxt` (each iteration removes
`nxt ≥ 1` from a non-negative `xp`); when `nxt ≤ 0` the JS loop would not
terminate at all, so no total function can agree with it there and the
guard `0 < nxt` stops the loop instead.  `Math.floor(nxt * 1.5)` is
`nxt * 3 / 2` with floor division. -/
def levelUpGo : Nat → Int → Int → Int → Int × Int × Int
  | 0, xp, level, nxt => (xp, level, nxt)
  | fuel + 1, xp, level, nxt =>
    if 0 < nxt ∧ nxt ≤ xp then
      levelUpGo fuel (xp - nxt) (level + 1) (nxt * 3 / 2)
    else
      (xp, level, nxt)

/-- The level-up loop of `addXp` run to completion (fuel `xp.toNat + 1`
suffices: see `levelUpGo_spec`). -/
def levelUpLoop (xp level nxt : Int) : Int × Int × Int :=
  levelUpGo (xp.toNat + 1) xp level nxt

/-- `addXp` (`App.js` lines 284-309): `xp += amount`, then the level-up
loop.  The `checkAchievements('levelUp', newLevel)` calls made inside the
loop enqueue separate `setPlayerStats` updaters that only touch the
`achievements` field (modelled by `checkAchievements` below); the `addXp`
updater itself writes exactly `xp`, `level` and `xpToNextLevel`. -/
def addXp (amount : Int) (s : PlayerStats) : PlayerStats :=
  let r := levelUpLoop (s.xp + amount) s.level s.xpToNextLevel
  { s with xp := r.1, level := r.2.1, xpToNextLevel := r.2.2 }

/-- `deductXp` (`App.js` lines 312-322): `xp = Math.max(0, xp - amount)`. -/
def deductXp (amount : Int) (s : PlayerStats) : PlayerStats :=
  { s with xp := max 0 (s.xp - amount) }

/-- `addGold` (`App.js` lines 325-335). -/
def addGold (amount : Int) (s : PlayerStats) : PlayerStats :=
  { s with gold := s.gold + amount }

/-- `deductGold` (`App.js` lines 338-348): `gold = Math.max(0, gold - amount)`. -/
def deductGold (amount : Int) (s : PlayerStats) : PlayerStats :=
  { s with gold := max 0 (s.gold - amount) }

/-- `addVitality` (`App.js` lines 351-361):
`vitality = Math.min(maxVitality, vitality + amount)`. -/
def addVitality (amount : Int) (s : PlayerStats) : PlayerStats :=
  { s with vitality := min s.maxVitality (s.vitality + amount) }

/-- `deductVitality` (`App.js` lines 364-380). -/
def deductVitality (amount : Int) (s : PlayerStats) : PlayerStats :=
  { s with vitality := max 0 (s.vitality - amount) }

/-- The `findIndex`-then-`map` replacement step of `updateSatisfaction`
(`App.js` lines 389-396): replace the `value` of the first entry whose
`date` equals `today`, keeping everything else. -/
def replaceTodayValue (today v : Int) : List SatEntry → List SatEntry
  | [] => []
  | e :: rest =>
    if e.date = today then { e with value := v } :: rest
    else e :: replaceTodayValue today v rest

/-- `updateSatisfaction` (`App.js` lines 383-413): clamp to `[0,100]`,
upsert today's entry, keep the last 30 entries (`slice(-30)` is
`drop (length - 30)`). -/
def updateSatisfaction (today value : Int) (s : PlayerStats) : PlayerStats :=
  let clamped := min 100 (max 0 value)
  let hist :=
    if s.satisfactionHistory.any (fun e => e.date == today) then
      replaceTodayValue today clamped s.satisfactionHistory
    else
      s.satisfactionHistory ++ [{ date := today, value := clamped }]
  { s with
      currentSatisfaction := clamped
      satisfactionHistory := hist.drop (hist.length - 30) }

/-- Static achievement rule table `allAchievements` (`App.js` lines
1231-1243); `name`/`description` are display-only and omitted. -/
structure AchievementDef where
  id : String
  atype : TriggerType
  count : Int
deriving DecidableEq, Repr

/-- The ten entries of `allAchievements` (`App.js` lines 1231-1243). -/
def allAchievements : List AchievementDef :=
  [ ⟨"firstObjective", .objectiveCompleted, 1⟩
  , ⟨"fiveObjectives", .objectiveCompleted, 5⟩
  , ⟨"level5", .levelUp, 5⟩
  , ⟨"level10", .levelUp, 10⟩
  , ⟨"firstStreak", .streak, 3⟩
  , ⟨"sevenDayStreak", .streak, 7⟩
  , ⟨"pomodoroInitiate", .pomodoroCompleted, 1⟩
  , ⟨"pomodoroMaster", .pomodoroCompleted, 10⟩
  , ⟨"firstDailyDesire", .dailyDesireCompleted, 1⟩
  , ⟨"tenDailyDesires", .dailyDesireCompleted, 10⟩ ]

/-- JS `value >= count` where `value` is the scan's second argument:
a number compares numerically, `null` coerces to `0`, and the string ids
passed on `objectiveCompleted`/`subtaskCompleted` scans compare as `NaN`
(always false) - those scans are modelled with `value = none`, which
agrees with the string behaviour on every threshold of the table
(all counts are ≥ 1). -/
def jsGe (value : Option Int) (count : Int) : Bool :=
  match value with
  | some v => count ≤ v
  | none => count ≤ 0

/-- The counter-increment prelude of `checkAchievements` (`App.js` lines
1251-1256): a `pomodoroCompleted` scan bumps `pomodoroCount`, a
`dailyDesireCompleted` scan bumps `dailyDesireCount`. -/
def bumpCounters (ty : TriggerType) (s : PlayerStats) : PlayerStats :=
  if ty = .pomodoroCompleted then
    { s with pomodoroCount := s.pomodoroCount + 1 }
  else if ty = .dailyDesireCompleted then
    { s with dailyDesireCount := s.dailyDesireCount + 1 }
  else s

/-- The unlock condition of one achievement in the `forEach` of
`checkAchievements` (`App.js` lines 1258-1289), evaluated against the
(counter-bumped) stats, the objective store, and the scan's `value`.
Note the `switch` is on the achievement's own `type`, not on the scan's
trigger, so every rule is re-evaluated on every scan. -/
def achCond (objs : List Objective) (s : PlayerStats) (value : Option Int)
    (a : AchievementDef) : Bool :=
  match a.atype with
  | .objectiveCompleted => a.count ≤ ((objs.filter (·.isCompleted)).length : Int)
  | .levelUp => jsGe value a.count
  | .streak => jsGe value a.count
  | .pomodoroCompleted => a.count ≤ s.pomodoroCount
  | .dailyDesireCompleted => a.count ≤ s.dailyDesireCount
  | .subtaskCompleted => false

/-- One step of the `forEach` push loop: skip ids already present,
append newly unlocked ids. -/
def unlockStep (cond : AchievementDef → Bool) (acc : List String)
    (a : AchievementDef) : List String :=
  if acc.contains a.id then acc
  else if cond a then acc ++ [a.id]
  else acc

/-- The whole `forEach` over the achievement table. -/
def unlockFold (cond : AchievementDef → Bool) (acc : List String)
    (l : List AchievementDef) : List String :=
  l.foldl (unlockStep cond) acc

/-- `checkAchievements` (`App.js` lines 1245-1299): bump the counter for
counting trigger types, then scan the whole table, unlocking every not-yet
unlocked achievement whose condition holds. -/
def checkAchievements (objs : List Objective) (ty : TriggerType)
    (value : Option Int) (s : PlayerStats) : PlayerStats :=
  { bumpCounters ty s with
      achievements :=
        unlockFold (achCond objs (bumpCounters ty s) value)
          s.achievements allAchievements }

/-- `checkDailyStreak` (`App.js` lines 1182-1220).  Calendar days are day
numbers, so `yesterdayString` is `today - 1`.  The `checkAchievements`
calls made inside the updater are applied after it. -/
def checkDailyStreak (today : Int) (objs : List Objective)
    (s : PlayerStats) : PlayerStats :=
  if s.lastStreakDate = some today then s
  else if s.lastStreakDate = some (today - 1) then
    checkAchievements objs .streak (some (s.currentStreak + 1))
      { s with currentStreak := s.currentStreak + 1, lastStreakDate := some today }
  else
    checkAchievements objs .streak (some 1)
      { s with currentStreak := 1, lastStreakDate := some today }

/-- `handleToggleSubtaskComplete` (`App.js` lines 581-620), for subtask
`st` of the current objective `obj`; `st.isCompleted` is the flag the
handler receives.  Returns the updated objective, player stats, and
subtask.  Completing grants via `addXp`/`addGold` and then runs the
`subtaskCompleted` achievement scan (its `value` is the subtask id string,
modelled `none`, see `jsGe`) and the daily streak check; un-completing
deducts the stored rewards and runs no scans. -/
def handleToggleSubtaskComplete (today : Int) (objs : List Objective)
    (st : Subtask) (obj : Objective) (s : PlayerStats) :
    Objective × PlayerStats × Subtask :=
  if st.isCompleted then
    ( { obj with currentProgress := max (obj.currentProgress - st.progressContribution) 0 }
    , deductGold st.goldReward (deductXp st.xpReward s)
    , { st with isCompleted := false } )
  else
    ( { obj with currentProgress := min (obj.currentProgress + st.progressContribution) obj.totalProgress }
    , checkDailyStreak today objs
        (checkAchievements objs .subtaskCompleted none
          (addGold st.goldReward (addXp st.xpReward s)))
    , { st with isCompleted := true } )

/-- `handleCompleteObjective` (`App.js` lines 485-526).  Rejected (message
only, no writes) when `currentProgress < totalProgress`; otherwise marks
the objective completed and non-current, grants `xpReward` XP and
`2 * xpReward` gold, runs the `objectiveCompleted` scan (`value` is the
objective id string, modelled `none`), and deletes every child subtask.
`none` models the rejected call, which changes nothing. -/
def handleCompleteObjective (obj : Objective) (subs : List Subtask)
    (objs : List Objective) (s : PlayerStats) :
    Option (Objective × List Subtask × PlayerStats) :=
  if obj.currentProgress < obj.totalProgress then none
  else
    some
      ( { obj with isCompleted := true, isCurrent := false }
      , []
      , checkAchievements objs .objectiveCompleted none
          (addGold (obj.xpReward * 2) (addXp obj.xpReward s)) )

/-- `24 * 60 * 60 * 1000` milliseconds (`App.js` line 1038). -/
def twentyFourHours : Int := 24 * 60 * 60 * 1000

/-- `handleClaimDailyReward` (`App.js` lines 1035-1059).  `now` is
`new Date().getTime()`.  The guard is `lastClaim && (now - lastClaim <
twentyFourHours)`, so a stored timestamp of `0` is falsy, exactly as in
JS.  On rejection returns the stats unchanged together with the reported
remaining cooldown `some (24h - elapsed)`; on success grants 25 XP and 15
gold and stamps `lastDailyRewardClaim = now`, returning `none` remaining. -/
def handleClaimDailyReward (now : Int) (s : PlayerStats) :
    PlayerStats × Option Int :=
  match s.lastDailyRewardClaim with
  | some t =>
    if t ≠ 0 ∧ now - t < twentyFourHours then
      (s, some (twentyFourHours - (now - t)))
    else
      ({ addGold 15 (addXp 25 s) with lastDailyRewardClaim := some now }, none)
  | none =>
    ({ addGold 15 (addXp 25 s) with lastDailyRewardClaim := some now }, none)

/-- `handleBuyReward` (`App.js` lines 1132-1141): if `gold >= cost`,
deduct the cost and run the reward's effect; otherwise do nothing.  The
`Bool` reports whether the purchase went through. -/
def handleBuyReward (cost : Int) (effect : PlayerStats → PlayerStats)
    (s : PlayerStats) : PlayerStats × Bool :=
  if cost ≤ s.gold then (effect (deductGold cost s), true)
  else (s, false)

/-- `satisfactionHistory` strict chronological order (the data-model
invariant: chronological with at most one entry per day). -/
def histSorted (l : List SatEntry) : Prop :=
  l.Pairwise (fun a b => a.date < b.date)

/-- At most one `satisfactionHistory` entry per calendar day. -/
def histOnePerDay (l : List SatEntry) : Prop :=
  l.Pairwise (fun a b => a.date ≠ b.date)

/-- Non-strict chronological order of `satisfactionHistory`. -/
def histChron (l : List SatEntry) : Prop :=
  l.Pairwise (fun a b => a.date ≤ b.date)

instance (l : List SatEntry) : Decidable (histSorted l) :=
  inferInstanceAs (Decidable (l.Pairwise _))

instance (l : List SatEntry) : Decidable (histOnePerDay l) :=
  inferInstanceAs (Decidable (l.Pairwise _))

instance (l : List SatEntry) : Decidable (histChron l) :=
  inferInstanceAs (Decidable (l.Pairwise _))

/-- The subtask used in the toggle scenarios: 20 XP, 10 gold, 30
progress. -/
def stW : Subtask :=
  { id := "s1", text := "step", isCompleted := false,
    xpReward := 20, goldReward := 10, progressContribution := 30 }

/-- The objective used in the toggle scenarios: no progress yet, total
100. -/
def objW : Objective :=
  { id := "o1", name := "quest", isCurrent := true, isCompleted := false,
    currentProgress := 0, totalProgress := 100, xpReward := 50 }

/-- First toggle (complete) of the round-trip witness scenario. -/
def tW1 : Objective × PlayerStats × Subtask :=
  handleToggleSubtaskComplete 1 [] stW objW initialPlayerStats

/-- Second toggle (undo) of the round-trip witness scenario. -/
def tW2 : Objective × PlayerStats × Subtask :=
  handleToggleSubtaskComplete 1 [] tW1.2.2 tW1.1 tW1.2.1

/-- Third toggle (complete again) of the round-trip witness scenario. -/
def tW3 : Objective × PlayerStats × Subtask :=
  handleToggleSubtaskComplete 1 [] tW2.2.2 tW2.1 tW2.2.1

/-- A ledger one grant away from levelling (90 of 100 XP). -/
def statsXp90 : PlayerStats := { initialPlayerStats with xp := 90 }

/-- First toggle (complete, levels up) of the counterexample scenario. -/
def tX1 : Objective × PlayerStats × Subtask :=
  handleToggleSubtaskComplete 1 [] stW objW statsXp90

/-- Second toggle (undo) of the counterexample scenario. -/
def tX2 : Objective × PlayerStats × Subtask :=
  handleToggleSubtaskComplete 1 [] tX1.2.2 tX1.1 tX1.2.1

/-- Third toggle (complete again) of the counterexample scenario. -/
def tX3 : Objective × PlayerStats × Subtask :=
  handleToggleSubtaskComplete 1 [] tX2.2.2 tX2.1 tX2.2.1

/-- A ledger holding a satisfaction entry dated day 5 (in the future
relative to the day-3 update of the counterexample). -/
def statsFutureSat : PlayerStats :=
  { initialPlayerStats with satisfactionHistory := [{ date := 5, value := 50 }] }

/-- A ledger with satisfaction entries on days 1 and 2. -/
def statsSat12 : PlayerStats :=
  { initialPlayerStats with
      satisfactionHistory := [{ date := 1, value := 40 }, { date := 2, value := 60 }] }

/-- A ledger with 10 XP (otherwise the initial defaults). -/
def statsXp10 : PlayerStats := { initialPlayerStats with xp := 10 }

/-- A ledger with eight completed pomodoro sessions and the
`pomodoroInitiate` badge already unlocked. -/
def statsPomodoro8 : PlayerStats :=
  { initialPlayerStats with pomodoroCount := 8, achievements := ["pomodoroInitiate"] }

/-- A ledger that claimed its daily reward at epoch-millisecond
`1700000000000`. -/
def statsClaimed : PlayerStats :=
  { initialPlayerStats with lastDailyRewardClaim := some 1700000000000 }

/-- A ledger whose streak was last evaluated on day 5 (streak 3). -/
def statsStreakToday : PlayerStats :=
  { initialPlayerStats with lastStreakDate := some 5, currentStreak := 3 }

/-- A ledger whose streak was last evaluated on day 4 (streak 3). -/
def statsStreakYesterday : PlayerStats :=
  { initialPlayerStats with lastStreakDate := some 4, currentStreak := 3 }

/-- A ledger whose streak was last evaluated on day 2 (streak 7). -/
def statsStreakGap : PlayerStats :=
  { initialPlayerStats with lastStreakDate := some 2, currentStreak := 7 }

/-- A ledger with 10 gold. -/
def statsGold10 : PlayerStats := { initialPlayerStats with gold := 10 }

/-- A ledger with 50 gold. -/
def statsGold50 : PlayerStats := { initialPlayerStats with gold := 50 }

/-- A fully progressed objective (100 of 100). -/
def objDone : Objective :=
  { id := "o1", name := "quest", isCurrent := true, isCompleted := false,
    currentProgress := 100, totalProgress := 100, xpReward := 50 }

/-- An under-progressed objective (40 of 100). -/
def objPartial : Objective :=
  { objDone with currentProgress := 40 }

/-! ## Theorems -/

/-- Behaviour of the level-up loop under sufficient fuel: the loop runs to
completion (exit condition `xp < nxt` holds), `level` and `nxt` never
decrease, and `nxt` stays positive. -/
theorem levelUpGo_spec (fuel : Nat) :
    ∀ xp level nxt : Int, 0 < nxt → xp.toNat < fuel →
      (levelUpGo fuel xp level nxt).1 < (levelUpGo fuel xp level nxt).2.2 ∧
      level ≤ (levelUpGo fuel xp level nxt).2.1 ∧
      nxt ≤ (levelUpGo fuel xp level nxt).2.2 ∧
      0 < (levelUpGo fuel xp level nxt).2.2 := by
  induction fuel with
  | zero => intro xp level nxt _ hf; omega
  | succ n ih =>
    intro xp level nxt hn hf
    simp only [levelUpGo]
    split
    · rename_i hguard
      have h1 : (xp - nxt).toNat < n := by omega
      have h2 : (0 : Int) < nxt * 3 / 2 := by omega
      have h3 : nxt ≤ nxt * 3 / 2 := by omega
      have h := ih (xp - nxt) (level + 1) (nxt * 3 / 2) h2 h1
      exact ⟨h.1, by omega, by omega, h.2.2.2⟩
    · rename_i hguard
      exact ⟨show xp < nxt by omega, le_refl _, le_refl _, hn⟩

/-- When no level-up can occur (`xp + amount < xpToNextLevel`), `addXp`
just adds the amount to `xp`. -/
theorem addXp_of_no_levelup (s : PlayerStats) (amount : Int)
    (h : s.xp + amount < s.xpToNextLevel) :
    addXp amount s = { s with xp := s.xp + amount } := by
  simp only [addXp, levelUpLoop, levelUpGo]
  rw [if_neg (by omega)]

/-- `addXp` never changes `gold`. -/
theorem addXp_gold (amount : Int) (s : PlayerStats) :
    (addXp amount s).gold = s.gold := rfl

/-- `addXp` never changes `lastStreakDate`, `currentStreak`,
`lastDailyRewardClaim` or `satisfactionHistory`. -/
theorem addXp_other_fields (amount : Int) (s : PlayerStats) :
    (addXp amount s).currentStreak = s.currentStreak ∧
    (addXp amount s).lastStreakDate = s.lastStreakDate ∧
    (addXp amount s).lastDailyRewardClaim = s.lastDailyRewardClaim ∧
    (addXp amount s).satisfactionHistory = s.satisfactionHistory :=
  ⟨rfl, rfl, rfl, rfl⟩

/-- C1.  For every ledger with `xp < xpToNextLevel` (and the data-model
invariant `xpToNextLevel > 0`) and every `amount ≥ 0`, after
`addXp amount` the ledger satisfies `xp < xpToNextLevel`, and both
`level` and `xpToNextLevel` are monotonically non-decreasing. -/
theorem addXp_leveling_invariant (s : PlayerStats) (amount : Int)
    (hamount : 0 ≤ amount) (hxp : s.xp < s.xpToNextLevel)
    (hnxt : 0 < s.xpToNextLevel) :
    (addXp amount s).xp < (addXp amount s).xpToNextLevel ∧
    s.level ≤ (addXp amount s).level ∧
    s.xpToNextLevel ≤ (addXp amount s).xpToNextLevel := by
  have h := levelUpGo_spec ((s.xp + amount).toNat + 1) (s.xp + amount)
    s.level s.xpToNextLevel hnxt (Nat.lt_succ_self _)
  simp only [addXp, levelUpLoop]
  exact ⟨h.1, h.2.1, h.2.2.1⟩

/-- Witness for C1: granting 250 XP from the initial ledger keeps the
leveling invariant. -/
theorem addXp_leveling_invariant_witness :
    (0 : Int) ≤ 250 ∧
    initialPlayerStats.xp < initialPlayerStats.xpToNextLevel ∧
    (0 : Int) < initialPlayerStats.xpToNextLevel ∧
    ((addXp 250 initialPlayerStats).xp < (addXp 250 initialPlayerStats).xpToNextLevel ∧
     initialPlayerStats.level ≤ (addXp 250 initialPlayerStats).level ∧
     initialPlayerStats.xpToNextLevel ≤ (addXp 250 initialPlayerStats).xpToNextLevel) :=
  ⟨by decide, by decide, by decide,
    addXp_leveling_invariant initialPlayerStats 250 (by decide) (by decide) (by decide)⟩

/-- C8.  When granting `amount ≥ 0` causes no level-up
(`xp + amount < xpToNextLevel`, with `xp ≥ 0` from the data model),
`deductXp amount` after `addXp amount` restores `xp` exactly; and for
every amount whatsoever, `deductXp` sets `xp` to `max 0 (xp - amount)`
and never changes `level`. -/
theorem deductXp_inverts_addXp (s : PlayerStats) (amount : Int)
    (hamount : 0 ≤ amount) (hxp0 : 0 ≤ s.xp)
    (hnl : s.xp + amount < s.xpToNextLevel) :
    (deductXp amount (addXp amount s)).xp = s.xp ∧
    (∀ (a : Int) (t : PlayerStats),
      (deductXp a t).xp = max 0 (t.xp - a) ∧ (deductXp a t).level = t.level) := by
  constructor
  · rw [addXp_of_no_levelup s amount hnl]
    simp only [deductXp]
    omega
  · exact fun a t => ⟨rfl, rfl⟩

/-- Witness for C8: grant then deduct 30 XP on the initial ledger. -/
theorem deductXp_inverts_addXp_witness :
    (0 : Int) ≤ 30 ∧ (0 : Int) ≤ initialPlayerStats.xp ∧
    initialPlayerStats.xp + 30 < initialPlayerStats.xpToNextLevel ∧
    ((deductXp 30 (addXp 30 initialPlayerStats)).xp = initialPlayerStats.xp ∧
     (∀ (a : Int) (t : PlayerStats),
       (deductXp a t).xp = max 0 (t.xp - a) ∧ (deductXp a t).level = t.level)) :=
  ⟨by decide, by decide, by decide,
    deductXp_inverts_addXp initialPlayerStats 30 (by decide) (by decide) (by decide)⟩


/-- Counterexample to C9 as stated: `addXp (-50)` on a ledger with
`xp = 10` yields `xp = -40`, not `max 0 (10 - 50) = 0`, and the result is
negative - the code has no negative-amount guard routing to `deductXp`. -/
theorem addXp_negative_counterexample :
    (addXp (-50) statsXp10).xp = -40 ∧
    (addXp (-50) statsXp10).xp ≠ max 0 (statsXp10.xp - 50) ∧
    (addXp (-50) statsXp10).xp < 0 := by decide

/-- C9 amended.  For `amount < 0` and a ledger with `xp < xpToNextLevel`,
`addXp` applies no routing or clamping: the resulting `xp` is exactly
`xp + amount` (possibly negative), and `level` and `xpToNextLevel` are
unchanged. -/
theorem addXp_negative_amount (s : PlayerStats) (amount : Int)
    (ha : amount < 0) (hxp : s.xp < s.xpToNextLevel) :
    (addXp amount s).xp = s.xp + amount ∧
    (addXp amount s).level = s.level ∧
    (addXp amount s).xpToNextLevel = s.xpToNextLevel := by
  rw [addXp_of_no_levelup s amount (by omega)]
  exact ⟨rfl, rfl, rfl⟩

/-- Witness for the amended C9. -/
theorem addXp_negative_amount_witness :
    (-50 : Int) < 0 ∧ statsXp10.xp < statsXp10.xpToNextLevel ∧
    ((addXp (-50) statsXp10).xp = statsXp10.xp + (-50) ∧
     (addXp (-50) statsXp10).level = statsXp10.level ∧
     (addXp (-50) statsXp10).xpToNextLevel = statsXp10.xpToNextLevel) :=
  ⟨by decide, by decide,
    addXp_negative_amount statsXp10 (-50) (by decide) (by decide)⟩

/-- One push step either leaves the unlocked list alone or appends a
single id that was not yet present. -/
theorem unlockStep_cases (cond : AchievementDef → Bool)
    (acc : List String) (a : AchievementDef) :
    unlockStep cond acc a = acc ∨
      (a.id ∉ acc ∧ unlockStep cond acc a = acc ++ [a.id]) := by
  unfold unlockStep
  split
  · exact Or.inl rfl
  · rename_i hcont
    simp only [List.contains, List.elem_eq_mem, decide_eq_true_eq] at hcont
    split
    · exact Or.inr ⟨hcont, rfl⟩
    · exact Or.inl rfl

/-- When the step's condition holds, the id is present afterwards. -/
theorem unlockStep_mem (cond : AchievementDef → Bool)
    (acc : List String) (a : AchievementDef) (hc : cond a = true) :
    a.id ∈ unlockStep cond acc a := by
  by_cases hcont : acc.contains a.id = true
  · have hmem : a.id ∈ acc := by
      simpa only [List.contains, List.elem_eq_mem, decide_eq_true_eq] using hcont
    unfold unlockStep
    rw [if_pos hcont]
    exact hmem
  · unfold unlockStep
    rw [if_neg hcont, if_pos hc]
    exact List.mem_append_right _ (List.mem_singleton.mpr rfl)

/-- The push loop only ever appends: the result extends the input
unlocked list on the right. -/
theorem unlockFold_append (cond : AchievementDef → Bool)
    (l : List AchievementDef) :
    ∀ acc, ∃ ext, unlockFold cond acc l = acc ++ ext := by
  induction l with
  | nil => exact fun acc => ⟨[], by simp [unlockFold]⟩
  | cons a t ih =>
    intro acc
    simp only [unlockFold, List.foldl_cons] at ih ⊢
    rcases unlockStep_cases cond acc a with h | ⟨_, h⟩ <;> rw [h]
    · exact ih acc
    · obtain ⟨e, he⟩ := ih (acc ++ [a.id])
      exact ⟨a.id :: e, by rw [he, List.append_assoc]; rfl⟩

/-- Anything already unlocked stays in the list. -/
theorem unlockFold_mem_mono (cond : AchievementDef → Bool)
    (l : List AchievementDef) (acc : List String) (x : String)
    (hx : x ∈ acc) : x ∈ unlockFold cond acc l := by
  obtain ⟨e, he⟩ := unlockFold_append cond l acc
  rw [he]
  exact List.mem_append_left _ hx

/-- After one pass, every achievement of the table whose condition holds
is in the unlocked list. -/
theorem unlockFold_mem (cond : AchievementDef → Bool)
    (l : List AchievementDef) :
    ∀ acc, ∀ a ∈ l, cond a = true → a.id ∈ unlockFold cond acc l := by
  induction l with
  | nil => intro acc a ha; cases ha
  | cons b t ih =>
    intro acc a ha hc
    simp only [unlockFold, List.foldl_cons]
    rcases List.mem_cons.mp ha with rfl | hat
    · exact unlockFold_mem_mono cond t _ _ (unlockStep_mem cond acc a hc)
    · exact ih _ a hat hc

/-- A pass over a list that already contains every satisfied id changes
nothing. -/
theorem unlockFold_all_mem (cond : AchievementDef → Bool)
    (l : List AchievementDef) :
    ∀ acc, (∀ a ∈ l, cond a = true → a.id ∈ acc) →
      unlockFold cond acc l = acc := by
  induction l with
  | nil => intro acc _; rfl
  | cons b t ih =>
    intro acc h
    simp only [unlockFold, List.foldl_cons]
    have hstep : unlockStep cond acc b = acc := by
      rcases unlockStep_cases cond acc b with hs | ⟨hna, hs⟩
      · exact hs
      · by_cases hc : cond b = true
        · exact absurd (h b (List.mem_cons_self b t) hc) hna
        · by_cases hcont : acc.contains b.id = true
          · unfold unlockStep
            rw [if_pos hcont]
          · unfold unlockStep
            rw [if_neg hcont, if_neg hc]
    rw [hstep]
    exact ih acc (fun a ha hc => h a (List.mem_cons_of_mem b ha) hc)

/-- The push loop never introduces a duplicate id. -/
theorem unlockFold_nodup (cond : AchievementDef → Bool)
    (l : List AchievementDef) :
    ∀ acc, acc.Nodup → (unlockFold cond acc l).Nodup := by
  induction l with
  | nil => intro acc h; exact h
  | cons b t ih =>
    intro acc h
    simp only [unlockFold, List.foldl_cons]
    refine ih _ ?_
    rcases unlockStep_cases cond acc b with hs | ⟨hna, hs⟩ <;> rw [hs]
    · exact h
    · simpa [List.nodup_append] using ⟨h, hna⟩

/-- `bumpCounters` is the identity on non-counting trigger types. -/
theorem bumpCounters_eq_self (ty : TriggerType)
    (h1 : ty ≠ .pomodoroCompleted) (h2 : ty ≠ .dailyDesireCompleted)
    (s : PlayerStats) : bumpCounters ty s = s := by
  unfold bumpCounters
  rw [if_neg h1, if_neg h2]

/-- The unlock condition only reads the two completion counters of the
stats argument. -/
theorem achCond_congr (objs : List Objective) (v : Option Int)
    (s t : PlayerStats) (hp : s.pomodoroCount = t.pomodoroCount)
    (hd : s.dailyDesireCount = t.dailyDesireCount) :
    achCond objs s v = achCond objs t v := by
  funext a
  unfold achCond
  cases a.atype <;> simp [hp, hd]

/-- The scan changes no stats field other than `achievements` and the two
completion counters. -/
theorem checkAchievements_preserves (objs : List Objective)
    (ty : TriggerType) (v : Option Int) (s : PlayerStats) :
    (checkAchievements objs ty v s).level = s.level ∧
    (checkAchievements objs ty v s).xp = s.xp ∧
    (checkAchievements objs ty v s).xpToNextLevel = s.xpToNextLevel ∧
    (checkAchievements objs ty v s).gold = s.gold ∧
    (checkAchievements objs ty v s).currentStreak = s.currentStreak ∧
    (checkAchievements objs ty v s).lastStreakDate = s.lastStreakDate ∧
    (checkAchievements objs ty v s).lastDailyRewardClaim = s.lastDailyRewardClaim ∧
    (checkAchievements objs ty v s).satisfactionHistory = s.satisfactionHistory := by
  simp only [checkAchievements, bumpCounters]
  split <;> (try split) <;> exact ⟨rfl, rfl, rfl, rfl, rfl, rfl, rfl, rfl⟩

/-- C3 amended.  A second `checkAchievements` scan with inputs identical
to the first changes nothing - provided the trigger type is not one of
the counting types (`pomodoroCompleted`, `dailyDesireCompleted`), whose
scans bump the corresponding counter on every call and can therefore
unlock more on the second call.  For every trigger type, a scan never
removes an unlocked id (the unlocked list is only appended to) and never
re-unlocks an already-unlocked id (no duplicates are introduced). -/
theorem checkAchievements_second_scan :
    (∀ (objs : List Objective) (ty : TriggerType) (v : Option Int) (s : PlayerStats),
      ty ≠ .pomodoroCompleted → ty ≠ .dailyDesireCompleted →
      checkAchievements objs ty v (checkAchievements objs ty v s) =
        checkAchievements objs ty v s) ∧
    (∀ (objs : List Objective) (ty : TriggerType) (v : Option Int) (s : PlayerStats),
      ∃ ext, (checkAchievements objs ty v s).achievements =
        s.achievements ++ ext) ∧
    (∀ (objs : List Objective) (ty : TriggerType) (v : Option Int) (s : PlayerStats),
      s.achievements.Nodup → (checkAchievements objs ty v s).achievements.Nodup) := by
  refine ⟨?_, ?_, ?_⟩
  · intro objs ty v s h1 h2
    have hb : ∀ t : PlayerStats, bumpCounters ty t = t :=
      fun t => bumpCounters_eq_self ty h1 h2 t
    simp only [checkAchievements, hb]
    have hcongr :
        achCond objs { s with
            achievements := unlockFold (achCond objs s v) s.achievements allAchievements } v =
        achCond objs s v :=
      achCond_congr objs v _ s rfl rfl
    rw [hcongr]
    have hid :
        unlockFold (achCond objs s v)
          (unlockFold (achCond objs s v) s.achievements allAchievements)
          allAchievements =
        unlockFold (achCond objs s v) s.achievements allAchievements :=
      unlockFold_all_mem _ _ _
        (fun a ha hc => unlockFold_mem _ _ _ a ha hc)
    rw [hid]
  · intro objs ty v s
    simp only [checkAchievements]
    exact unlockFold_append _ allAchievements s.achievements
  · intro objs ty v s h
    simp only [checkAchievements]
    exact unlockFold_nodup _ allAchievements s.achievements h

/-- Witness for the amended C3: a `levelUp` scan at level 5 on the
initial ledger, run twice, is a no-op the second time; the unlocked list
extends the original and stays duplicate-free. -/
theorem checkAchievements_second_scan_witness :
    (checkAchievements [] .levelUp (some 5)
        (checkAchievements [] .levelUp (some 5) initialPlayerStats) =
      checkAchievements [] .levelUp (some 5) initialPlayerStats) ∧
    (∃ ext, (checkAchievements [] .levelUp (some 5) initialPlayerStats).achievements =
      initialPlayerStats.achievements ++ ext) ∧
    (checkAchievements [] .levelUp (some 5) initialPlayerStats).achievements.Nodup :=
  ⟨checkAchievements_second_scan.1 [] .levelUp (some 5) initialPlayerStats
      (by decide) (by decide),
   checkAchievements_second_scan.2.1 [] .levelUp (some 5) initialPlayerStats,
   checkAchievements_second_scan.2.2 [] .levelUp (some 5) initialPlayerStats
      (by decide)⟩


/-- Counterexample to C3 as stated: a `pomodoroCompleted` scan bumps
`pomodoroCount` on every call, so scanning twice with identical inputs
from a ledger with `pomodoroCount = 8` unlocks `pomodoroMaster` on the
second call only - the unlocked set after the second scan differs from
the set after the first. -/
theorem checkAchievements_not_idempotent_counterexample :
    (checkAchievements [] .pomodoroCompleted none
        (checkAchievements [] .pomodoroCompleted none statsPomodoro8)).achievements ≠
      (checkAchievements [] .pomodoroCompleted none statsPomodoro8).achievements := by
  decide

/-- C4.  `handleClaimDailyReward` succeeds iff `lastDailyRewardClaim` is
null or at least 24h old (the hypothesis rules out the epoch-zero
timestamp, which is JS-falsy and which `new Date().getTime()` never
stores).  On success it grants 25 XP (per the GrantXP rules; exactly
`xp + 25` when no level-up occurs) and 15 gold and stamps
`lastDailyRewardClaim = now`; an early attempt leaves the ledger
unchanged and reports the remaining cooldown `24h - elapsed`. -/
theorem handleClaimDailyReward_spec (now : Int) (s : PlayerStats)
    (hz : s.lastDailyRewardClaim ≠ some 0) :
    ((handleClaimDailyReward now s).2 = none ↔
      (s.lastDailyRewardClaim = none ∨
       ∃ t, s.lastDailyRewardClaim = some t ∧ twentyFourHours ≤ now - t)) ∧
    ((handleClaimDailyReward now s).2 = none →
      ((handleClaimDailyReward now s).1.lastDailyRewardClaim = some now ∧
       (handleClaimDailyReward now s).1.gold = s.gold + 15 ∧
       (handleClaimDailyReward now s).1.xp = (addXp 25 s).xp ∧
       (s.xp + 25 < s.xpToNextLevel →
         (handleClaimDailyReward now s).1.xp = s.xp + 25))) ∧
    (∀ t, s.lastDailyRewardClaim = some t → now - t < twentyFourHours →
      (handleClaimDailyReward now s).1 = s ∧
      (handleClaimDailyReward now s).2 = some (twentyFourHours - (now - t))) := by
  rcases hlc : s.lastDailyRewardClaim with _ | t
  · simp only [handleClaimDailyReward, hlc]
    refine ⟨by simp, ?_, ?_⟩
    · intro _
      refine ⟨by trivial, ?_, by trivial, ?_⟩
      · show (addXp 25 s).gold + 15 = s.gold + 15
        rw [addXp_gold]
      · intro hnl
        show (addXp 25 s).xp = s.xp + 25
        rw [addXp_of_no_levelup s 25 hnl]
    · intro t' ht'
      simp at ht'
  · have ht0 : t ≠ 0 := fun h => hz (h ▸ hlc)
    by_cases hcool : now - t < twentyFourHours
    · simp only [handleClaimDailyReward, hlc, if_pos (And.intro ht0 hcool)]
      refine ⟨?_, ?_, ?_⟩
      · constructor
        · intro hc
          simp at hc
        · rintro (hc | ⟨t', ht', hle⟩)
          · simp at hc
          · injection ht' with h
            omega
      · intro hc
        simp at hc
      · intro t' ht' _
        injection ht' with h
        subst h
        exact ⟨by trivial, by trivial⟩
    · have hguard : ¬(t ≠ 0 ∧ now - t < twentyFourHours) := fun h => hcool h.2
      simp only [handleClaimDailyReward, hlc, if_neg hguard]
      refine ⟨?_, ?_, ?_⟩
      · exact ⟨fun _ => Or.inr ⟨t, by trivial, by omega⟩, fun _ => by trivial⟩
      · intro _
        refine ⟨by trivial, ?_, by trivial, ?_⟩
        · show (addXp 25 s).gold + 15 = s.gold + 15
          rw [addXp_gold]
        · intro hnl
          show (addXp 25 s).xp = s.xp + 25
          rw [addXp_of_no_levelup s 25 hnl]
      · intro t' ht' hc'
        injection ht' with h
        omega


/-- Witness for C4: after claiming at `t0`, an attempt at `t0 + 23h59m`
is rejected with 60000 ms (one minute) remaining and leaves the ledger
unchanged, while an attempt at `t0 + 24h` succeeds. -/
theorem handleClaimDailyReward_spec_witness :
    ((handleClaimDailyReward (1700000000000 + 86340000) statsClaimed).1 = statsClaimed ∧
     (handleClaimDailyReward (1700000000000 + 86340000) statsClaimed).2 = some 60000) ∧
    (handleClaimDailyReward (1700000000000 + 86400000) statsClaimed).2 = none := by
  constructor
  · have h :=
      (handleClaimDailyReward_spec (1700000000000 + 86340000) statsClaimed
        (by decide)).2.2 1700000000000 rfl (by decide)
    refine ⟨h.1, ?_⟩
    rw [h.2]
    decide
  · exact (handleClaimDailyReward_spec (1700000000000 + 86400000) statsClaimed
      (by decide)).1.mpr (Or.inr ⟨1700000000000, rfl, by decide⟩)

/-- C5.  `checkDailyStreak` is a no-op when already evaluated today,
increments the streak when `lastStreakDate` is yesterday, resets it to 1
otherwise, and stamps `lastStreakDate = today` on every non-no-op path. -/
theorem checkDailyStreak_spec (today : Int) (objs : List Objective)
    (s : PlayerStats) :
    (s.lastStreakDate = some today → checkDailyStreak today objs s = s) ∧
    (s.lastStreakDate = some (today - 1) →
      (checkDailyStreak today objs s).currentStreak = s.currentStreak + 1 ∧
      (checkDailyStreak today objs s).lastStreakDate = some today) ∧
    (s.lastStreakDate ≠ some today → s.lastStreakDate ≠ some (today - 1) →
      (checkDailyStreak today objs s).currentStreak = 1 ∧
      (checkDailyStreak today objs s).lastStreakDate = some today) := by
  refine ⟨?_, ?_, ?_⟩
  · intro h
    simp [checkDailyStreak, h]
  · intro h
    have hne : s.lastStreakDate ≠ some today := by
      rw [h]
      intro hc
      injection hc with hc'
      omega
    rw [checkDailyStreak, if_neg hne, if_pos h]
    have hp := checkAchievements_preserves objs .streak (some (s.currentStreak + 1))
      { s with currentStreak := s.currentStreak + 1, lastStreakDate := some today }
    exact ⟨hp.2.2.2.2.1, hp.2.2.2.2.2.1⟩
  · intro h1 h2
    rw [checkDailyStreak, if_neg h1, if_neg h2]
    have hp := checkAchievements_preserves objs .streak (some 1)
      { s with currentStreak := 1, lastStreakDate := some today }
    exact ⟨hp.2.2.2.2.1, hp.2.2.2.2.2.1⟩




/-- Witness for C5: evaluating on day 5 is a no-op when already counted
on day 5, continues 3 to 4 from day 4, and resets to 1 from day 2. -/
theorem checkDailyStreak_spec_witness :
    checkDailyStreak 5 [] statsStreakToday = statsStreakToday ∧
    ((checkDailyStreak 5 [] statsStreakYesterday).currentStreak =
        statsStreakYesterday.currentStreak + 1 ∧
     (checkDailyStreak 5 [] statsStreakYesterday).lastStreakDate = some 5) ∧
    ((checkDailyStreak 5 [] statsStreakGap).currentStreak = 1 ∧
     (checkDailyStreak 5 [] statsStreakGap).lastStreakDate = some 5) :=
  ⟨(checkDailyStreak_spec 5 [] statsStreakToday).1 rfl,
   (checkDailyStreak_spec 5 [] statsStreakYesterday).2.1 (by decide),
   (checkDailyStreak_spec 5 [] statsStreakGap).2.2 (by decide) (by decide)⟩

/-- C10.  `handleBuyReward` with insufficient gold is rejected: the
effect does not run and the ledger is unchanged.  With `gold ≥ cost` the
purchase deducts exactly `cost` (leaving `gold - cost ≥ 0`) and then
applies the effect; since every effect in the shop leaves `gold` alone,
the final gold is `gold - cost`. -/
theorem handleBuyReward_spec (cost : Int) (effect : PlayerStats → PlayerStats)
    (s : PlayerStats) :
    (s.gold < cost → handleBuyReward cost effect s = (s, false)) ∧
    (cost ≤ s.gold →
      (handleBuyReward cost effect s).1 = effect (deductGold cost s) ∧
      (deductGold cost s).gold = s.gold - cost ∧
      0 ≤ (deductGold cost s).gold ∧
      ((∀ t, (effect t).gold = t.gold) →
        (handleBuyReward cost effect s).1.gold = s.gold - cost)) := by
  constructor
  · intro h
    rw [handleBuyReward, if_neg (by omega)]
  · intro h
    rw [handleBuyReward, if_pos h]
    have hd : (deductGold cost s).gold = s.gold - cost := by
      simp only [deductGold]
      omega
    exact ⟨rfl, hd, by rw [hd]; omega, fun heff => by rw [heff, hd]⟩



/-- The scan preserves `xp`. -/
@[simp] theorem checkAchievements_xp (objs : List Objective) (ty : TriggerType)
    (v : Option Int) (s : PlayerStats) :
    (checkAchievements objs ty v s).xp = s.xp :=
  (checkAchievements_preserves objs ty v s).2.1

/-- The scan preserves `gold`. -/
@[simp] theorem checkAchievements_gold (objs : List Objective) (ty : TriggerType)
    (v : Option Int) (s : PlayerStats) :
    (checkAchievements objs ty v s).gold = s.gold :=
  (checkAchievements_preserves objs ty v s).2.2.2.1

/-- The scan preserves `xpToNextLevel`. -/
@[simp] theorem checkAchievements_xpToNextLevel (objs : List Objective)
    (ty : TriggerType) (v : Option Int) (s : PlayerStats) :
    (checkAchievements objs ty v s).xpToNextLevel = s.xpToNextLevel :=
  (checkAchievements_preserves objs ty v s).2.2.1

/-- The streak check preserves `xp`, `gold` and `xpToNextLevel`. -/
@[simp] theorem checkDailyStreak_xp (today : Int) (objs : List Objective)
    (s : PlayerStats) : (checkDailyStreak today objs s).xp = s.xp := by
  unfold checkDailyStreak
  split
  · rfl
  · split <;> rw [checkAchievements_xp]

/-- The streak check preserves `gold`. -/
@[simp] theorem checkDailyStreak_gold (today : Int) (objs : List Objective)
    (s : PlayerStats) : (checkDailyStreak today objs s).gold = s.gold := by
  unfold checkDailyStreak
  split
  · rfl
  · split <;> rw [checkAchievements_gold]

/-- The streak check preserves `xpToNextLevel`. -/
@[simp] theorem checkDailyStreak_xpToNextLevel (today : Int)
    (objs : List Objective) (s : PlayerStats) :
    (checkDailyStreak today objs s).xpToNextLevel = s.xpToNextLevel := by
  unfold checkDailyStreak
  split
  · rfl
  · split <;> rw [checkAchievements_xpToNextLevel]

/-- `addGold` changes only `gold`, by exactly the amount. -/
@[simp] theorem addGold_xp (a : Int) (s : PlayerStats) :
    (addGold a s).xp = s.xp := rfl

/-- `addGold` adds exactly the amount. -/
@[simp] theorem addGold_gold (a : Int) (s : PlayerStats) :
    (addGold a s).gold = s.gold + a := rfl

/-- `addGold` preserves `xpToNextLevel`. -/
@[simp] theorem addGold_xpToNextLevel (a : Int) (s : PlayerStats) :
    (addGold a s).xpToNextLevel = s.xpToNextLevel := rfl

/-- C6.  Completing an under-progressed objective is rejected with no
state change (`none`); with `currentProgress ≥ totalProgress` it marks
the objective completed and non-current, grants exactly `xpReward` XP
(per the GrantXP rules, `xp + xpReward` when no level-up occurs) and
`2 × xpReward` gold, and deletes every child subtask. -/
theorem handleCompleteObjective_spec (obj : Objective) (subs : List Subtask)
    (objs : List Objective) (s : PlayerStats) :
    (handleCompleteObjective obj subs objs s = none ↔
      obj.currentProgress < obj.totalProgress) ∧
    (obj.totalProgress ≤ obj.currentProgress → ∃ obj2 s2,
      handleCompleteObjective obj subs objs s = some (obj2, [], s2) ∧
      obj2.isCompleted = true ∧ obj2.isCurrent = false ∧
      s2.gold = s.gold + obj.xpReward * 2 ∧
      s2.xp = (addXp obj.xpReward s).xp ∧
      s2.level = (addXp obj.xpReward s).level ∧
      (s.xp + obj.xpReward < s.xpToNextLevel →
        s2.xp = s.xp + obj.xpReward)) := by
  constructor
  · unfold handleCompleteObjective
    split
    · rename_i h
      exact ⟨fun _ => h, fun _ => rfl⟩
    · rename_i h
      exact ⟨fun hc => by simp at hc, fun hc => absurd hc h⟩
  · intro h
    rw [handleCompleteObjective,
      if_neg (by omega : ¬ obj.currentProgress < obj.totalProgress)]
    have hp := checkAchievements_preserves objs .objectiveCompleted none
      (addGold (obj.xpReward * 2) (addXp obj.xpReward s))
    refine ⟨_, _, rfl, rfl, rfl, ?_, ?_, ?_, ?_⟩
    · rw [hp.2.2.2.1]
      show (addXp obj.xpReward s).gold + obj.xpReward * 2 = s.gold + obj.xpReward * 2
      rw [addXp_gold]
    · exact hp.2.1
    · exact hp.1
    · intro hnl
      rw [hp.2.1]
      show (addXp obj.xpReward s).xp = s.xp + obj.xpReward
      rw [addXp_of_no_levelup s _ hnl]



/-- Witness for C6: completing the under-progressed objective is
rejected; completing the fully progressed one grants 50 XP and 100 gold,
flips the flags, and clears the subtasks. -/
theorem handleCompleteObjective_spec_witness :
    handleCompleteObjective objPartial [] [] initialPlayerStats = none ∧
    (∃ obj2 s2,
      handleCompleteObjective objDone [] [] initialPlayerStats = some (obj2, [], s2) ∧
      obj2.isCompleted = true ∧ obj2.isCurrent = false ∧
      s2.gold = initialPlayerStats.gold + objDone.xpReward * 2 ∧
      s2.xp = (addXp objDone.xpReward initialPlayerStats).xp ∧
      s2.level = (addXp objDone.xpReward initialPlayerStats).level ∧
      (initialPlayerStats.xp + objDone.xpReward < initialPlayerStats.xpToNextLevel →
        s2.xp = initialPlayerStats.xp + objDone.xpReward)) :=
  ⟨(handleCompleteObjective_spec objPartial [] [] initialPlayerStats).1.mpr (by decide),
   (handleCompleteObjective_spec objDone [] [] initialPlayerStats).2 (by decide)⟩

/-- Completing a not-yet-completed subtask whose XP grant causes no
level-up: field-level description of the result. -/
theorem toggle_complete_proj (today : Int) (objs : List Objective)
    (st : Subtask) (obj : Objective) (s : PlayerStats)
    (hst : st.isCompleted = false)
    (hnl : s.xp + st.xpReward < s.xpToNextLevel) :
    (handleToggleSubtaskComplete today objs st obj s).1 =
      { obj with currentProgress := min (obj.currentProgress + st.progressContribution) obj.totalProgress } ∧
    (handleToggleSubtaskComplete today objs st obj s).2.1.xp = s.xp + st.xpReward ∧
    (handleToggleSubtaskComplete today objs st obj s).2.1.gold = s.gold + st.goldReward ∧
    (handleToggleSubtaskComplete today objs st obj s).2.1.xpToNextLevel = s.xpToNextLevel ∧
    (handleToggleSubtaskComplete today objs st obj s).2.2 =
      { st with isCompleted := true } := by
  simp [handleToggleSubtaskComplete, hst,
    addXp_of_no_levelup s st.xpReward hnl]

/-- Un-completing a completed subtask: field-level description of the
result (stored rewards deducted with the `max 0` clamps). -/
theorem toggle_undo_proj (today : Int) (objs : List Objective)
    (st : Subtask) (obj : Objective) (s : PlayerStats)
    (hst : st.isCompleted = true) :
    (handleToggleSubtaskComplete today objs st obj s).1 =
      { obj with currentProgress := max (obj.currentProgress - st.progressContribution) 0 } ∧
    (handleToggleSubtaskComplete today objs st obj s).2.1.xp =
      max 0 (s.xp - st.xpReward) ∧
    (handleToggleSubtaskComplete today objs st obj s).2.1.gold =
      max 0 (s.gold - st.goldReward) ∧
    (handleToggleSubtaskComplete today objs st obj s).2.1.xpToNextLevel =
      s.xpToNextLevel ∧
    (handleToggleSubtaskComplete today objs st obj s).2.2 =
      { st with isCompleted := false } := by
  simp [handleToggleSubtaskComplete, hst, deductXp, deductGold]

/-- C2 amended.  Toggling a subtask complete, then incomplete, then
complete again yields the same objective `currentProgress` and the same
ledger `xp` and `gold` as toggling it complete once - provided the
starting ledger is well-formed (`xp ≥ 0`, `gold ≥ 0`,
`currentProgress ≥ 0`) and granting the subtask's `xpReward` causes no
level-up (`xp + xpReward < xpToNextLevel`).  When the first grant does
level up, the deduction clamps at 0 and the round trip drifts (see the
counterexample to the unrestricted claim). -/
theorem toggle_double_roundtrip (today : Int) (objs : List Objective)
    (st : Subtask) (obj : Objective) (s : PlayerStats)
    (obj1 : Objective) (s1 : PlayerStats) (st1 : Subtask)
    (obj2 : Objective) (s2 : PlayerStats) (st2 : Subtask)
    (obj3 : Objective) (s3 : PlayerStats) (st3 : Subtask)
    (hst : st.isCompleted = false) (hp : 0 ≤ obj.currentProgress)
    (hxp0 : 0 ≤ s.xp) (hgold0 : 0 ≤ s.gold)
    (hnl : s.xp + st.xpReward < s.xpToNextLevel)
    (h1 : handleToggleSubtaskComplete today objs st obj s = (obj1, s1, st1))
    (h2 : handleToggleSubtaskComplete today objs st1 obj1 s1 = (obj2, s2, st2))
    (h3 : handleToggleSubtaskComplete today objs st2 obj2 s2 = (obj3, s3, st3)) :
    obj3.currentProgress = obj1.currentProgress ∧
    s3.xp = s1.xp ∧ s3.gold = s1.gold := by
  have P1 := toggle_complete_proj today objs st obj s hst hnl
  rw [h1] at P1
  have e1obj : obj1 = { obj with currentProgress := min (obj.currentProgress + st.progressContribution) obj.totalProgress } := P1.1
  have e1xp : s1.xp = s.xp + st.xpReward := P1.2.1
  have e1gold : s1.gold = s.gold + st.goldReward := P1.2.2.1
  have e1nxt : s1.xpToNextLevel = s.xpToNextLevel := P1.2.2.2.1
  have e1st : st1 = { st with isCompleted := true } := P1.2.2.2.2
  subst e1st
  have P2 := toggle_undo_proj today objs { st with isCompleted := true } obj1 s1 rfl
  rw [h2] at P2
  have e2obj : obj2 = { obj1 with currentProgress := max (obj1.currentProgress - st.progressContribution) 0 } := P2.1
  have e2xp : s2.xp = max 0 (s1.xp - st.xpReward) := P2.2.1
  have e2gold : s2.gold = max 0 (s1.gold - st.goldReward) := P2.2.2.1
  have e2nxt : s2.xpToNextLevel = s1.xpToNextLevel := P2.2.2.2.1
  have e2st : st2 = { st with isCompleted := false } := P2.2.2.2.2
  subst e2st
  have hnl3 : s2.xp + st.xpReward < s2.xpToNextLevel := by
    rw [e2xp, e2nxt, e1xp, e1nxt]
    omega
  have P3 := toggle_complete_proj today objs
    { st with isCompleted := false } obj2 s2 rfl hnl3
  rw [h3] at P3
  have e3obj : obj3 = { obj2 with currentProgress := min (obj2.currentProgress + st.progressContribution) obj2.totalProgress } := P3.1
  have e3xp : s3.xp = s2.xp + st.xpReward := P3.2.1
  have e3gold : s3.gold = s2.gold + st.goldReward := P3.2.2.1
  subst e1obj
  subst e2obj
  subst e3obj
  refine ⟨?_, ?_, ?_⟩
  · show min (max (min (obj.currentProgress + st.progressContribution)
        obj.totalProgress - st.progressContribution) 0 + st.progressContribution)
      obj.totalProgress =
      min (obj.currentProgress + st.progressContribution) obj.totalProgress
    omega
  · rw [e3xp, e2xp, e1xp]
    omega
  · rw [e3gold, e2gold, e1gold]
    omega

/-- Witness for C10: buying the 40-gold vitality potion is rejected with
10 gold, and with 50 gold it goes through, leaving exactly 10 gold. -/
theorem handleBuyReward_spec_witness :
    handleBuyReward 40 (addVitality 20) statsGold10 = (statsGold10, false) ∧
    ((handleBuyReward 40 (addVitality 20) statsGold50).1 =
        addVitality 20 (deductGold 40 statsGold50) ∧
     (deductGold 40 statsGold50).gold = statsGold50.gold - 40 ∧
     0 ≤ (deductGold 40 statsGold50).gold ∧
     (handleBuyReward 40 (addVitality 20) statsGold50).1.gold =
        statsGold50.gold - 40) := by
  constructor
  · exact (handleBuyReward_spec 40 (addVitality 20) statsGold10).1 (by decide)
  · have h := (handleBuyReward_spec 40 (addVitality 20) statsGold50).2 (by decide)
    exact ⟨h.1, h.2.1, h.2.2.1, h.2.2.2 (fun t => rfl)⟩

/-- Witness for the amended C2: the complete/undo/complete round trip on
a fresh ledger (no level-up: 0 + 20 < 100) reproduces the progress, XP
and gold of a single completion. -/
theorem toggle_double_roundtrip_witness :
    tW3.1.currentProgress = tW1.1.currentProgress ∧
    tW3.2.1.xp = tW1.2.1.xp ∧ tW3.2.1.gold = tW1.2.1.gold :=
  toggle_double_roundtrip 1 [] stW objW initialPlayerStats
    tW1.1 tW1.2.1 tW1.2.2 tW2.1 tW2.2.1 tW2.2.2 tW3.1 tW3.2.1 tW3.2.2
    (by decide) (by decide) (by decide) (by decide) (by decide) rfl rfl rfl

/-- Counterexample to C2 as stated: starting from 90/100 XP, completing
the 20-XP subtask levels the player up (leaving 10 XP into level 2), the
undo clamps the deduction at 0, and the second completion ends at 20 XP,
not 10 - so the double-toggle round trip does not reproduce the single
toggle for every starting state. -/
theorem toggle_double_roundtrip_counterexample :
    tX1.2.1.xp = 10 ∧ tX3.2.1.xp = 20 ∧ tX3.2.1.xp ≠ tX1.2.1.xp := by
  decide

/-- `replaceTodayValue` keeps every entry's date. -/
theorem replaceTodayValue_dates (t v : Int) (l : List SatEntry) :
    (replaceTodayValue t v l).map (fun e => e.date) = l.map (fun e => e.date) := by
  induction l with
  | nil => rfl
  | cons e rest ih =>
    unfold replaceTodayValue
    split
    · simp
    · simpa using ih

/-- `replaceTodayValue` keeps the length. -/
theorem replaceTodayValue_length (t v : Int) (l : List SatEntry) :
    (replaceTodayValue t v l).length = l.length := by
  have h := congrArg List.length (replaceTodayValue_dates t v l)
  simpa using h

/-- If some entry is dated `t`, the replaced list contains the fresh
`⟨t, v⟩` entry. -/
theorem replaceTodayValue_mem (t v : Int) (l : List SatEntry)
    (h : l.any (fun e => e.date == t) = true) :
    SatEntry.mk t v ∈ replaceTodayValue t v l := by
  induction l with
  | nil => simp at h
  | cons e rest ih =>
    unfold replaceTodayValue
    split
    · rename_i hd
      have he : ({ e with value := v } : SatEntry) = SatEntry.mk t v := by
        cases e
        simp only [SatEntry.mk.injEq]
        exact ⟨hd, trivial⟩
      rw [he]
      exact List.mem_cons_self _ _
    · rename_i hd
      simp only [List.any_cons, Bool.or_eq_true, beq_iff_eq] at h
      rcases h with h | h
      · exact absurd h hd
      · exact List.mem_cons_of_mem _ (ih (by simpa using h))

/-- Replacement preserves strict chronological order. -/
theorem replaceTodayValue_sorted (t v : Int) (l : List SatEntry)
    (h : histSorted l) : histSorted (replaceTodayValue t v l) := by
  unfold histSorted at h ⊢
  rw [← List.pairwise_map (f := fun e : SatEntry => e.date)] at h ⊢
  rw [replaceTodayValue_dates]
  exact h

/-- C7 amended.  For every integer value and every ledger whose
satisfaction history has at most 30 entries, at most one entry per day,
is chronologically ordered, and contains no entry dated after `today`:
`updateSatisfaction` sets `currentSatisfaction` to the clamped value,
upserts today's entry, and the resulting history again has at most 30
entries, at most one entry per day, and is chronologically ordered.
(Without the no-future-entry condition the appended today entry can land
behind a later-dated entry - see the counterexample.) -/
theorem updateSatisfaction_invariants (today value : Int) (s : PlayerStats)
    (hlen : s.satisfactionHistory.length ≤ 30)
    (hone : histOnePerDay s.satisfactionHistory)
    (hchron : histChron s.satisfactionHistory)
    (hle : ∀ e ∈ s.satisfactionHistory, e.date ≤ today) :
    (updateSatisfaction today value s).currentSatisfaction = min 100 (max 0 value) ∧
    SatEntry.mk today (min 100 (max 0 value)) ∈
      (updateSatisfaction today value s).satisfactionHistory ∧
    (updateSatisfaction today value s).satisfactionHistory.length ≤ 30 ∧
    histOnePerDay (updateSatisfaction today value s).satisfactionHistory ∧
    histChron (updateSatisfaction today value s).satisfactionHistory := by
  have hsorted : histSorted s.satisfactionHistory := by
    unfold histSorted
    exact (hchron.and hone).imp (fun hab => lt_of_le_of_ne hab.1 hab.2)
  have hmain :
      SatEntry.mk today (min 100 (max 0 value)) ∈
        (updateSatisfaction today value s).satisfactionHistory ∧
      (updateSatisfaction today value s).satisfactionHistory.length ≤ 30 ∧
      histSorted (updateSatisfaction today value s).satisfactionHistory := by
    by_cases hany : s.satisfactionHistory.any (fun e => e.date == today) = true
    · have hdrop :
          (replaceTodayValue today (min 100 (max 0 value)) s.satisfactionHistory).length - 30 = 0 := by
        rw [replaceTodayValue_length]
        omega
      simp only [updateSatisfaction, if_pos hany, hdrop, List.drop_zero]
      refine ⟨replaceTodayValue_mem _ _ _ hany, ?_, ?_⟩
      · rw [replaceTodayValue_length]
        exact hlen
      · exact replaceTodayValue_sorted _ _ _ hsorted
    · have hn : (s.satisfactionHistory ++ [SatEntry.mk today (min 100 (max 0 value))]).length - 30 ≤
          s.satisfactionHistory.length := by
        simp only [List.length_append, List.length_singleton]
        omega
      have hlt : ∀ e ∈ s.satisfactionHistory, e.date < today := by
        intro e he
        rcases lt_or_eq_of_le (hle e he) with h | h
        · exact h
        · exfalso
          apply hany
          rw [List.any_eq_true]
          exact ⟨e, he, by simpa using h⟩
      have happ : histSorted
          (s.satisfactionHistory ++ [SatEntry.mk today (min 100 (max 0 value))]) := by
        unfold histSorted
        rw [List.pairwise_append]
        refine ⟨hsorted, List.pairwise_singleton _ _, ?_⟩
        intro a ha b hb
        rw [List.mem_singleton] at hb
        subst hb
        exact hlt a ha
      simp only [updateSatisfaction, if_neg hany]
      refine ⟨?_, ?_, ?_⟩
      · rw [List.drop_append_of_le_length hn]
        exact List.mem_append_right _ (List.mem_singleton.mpr rfl)
      · simp only [List.length_drop, List.length_append, List.length_singleton]
        omega
      · exact List.Pairwise.sublist (List.drop_sublist _ _) happ
  refine ⟨rfl, hmain.1, hmain.2.1, ?_, ?_⟩
  · exact hmain.2.2.imp (fun hab => ne_of_lt hab)
  · exact hmain.2.2.imp (fun hab => le_of_lt hab)

/-- Witness for the amended C7: updating to 150 on day 3 over the
history of days 1 and 2 clamps to 100, upserts day 3, and keeps all
three invariants. -/
theorem updateSatisfaction_invariants_witness :
    ((updateSatisfaction 3 150 statsSat12).currentSatisfaction = min 100 (max 0 150) ∧
     SatEntry.mk 3 (min 100 (max 0 150)) ∈
       (updateSatisfaction 3 150 statsSat12).satisfactionHistory ∧
     (updateSatisfaction 3 150 statsSat12).satisfactionHistory.length ≤ 30 ∧
     histOnePerDay (updateSatisfaction 3 150 statsSat12).satisfactionHistory ∧
     histChron (updateSatisfaction 3 150 statsSat12).satisfactionHistory) :=
  updateSatisfaction_invariants 3 150 statsSat12
    (by decide) (by decide) (by decide) (by decide)

/-- Counterexample to C7 as stated: the ledger whose single history
entry is dated day 5 satisfies every hypothesis of the claim (at most 30
entries, one per day, chronological), yet updating on day 3 appends the
day-3 entry after the day-5 entry, so chronological order is lost. -/
theorem updateSatisfaction_counterexample :
    statsFutureSat.satisfactionHistory.length ≤ 30 ∧
    histOnePerDay statsFutureSat.satisfactionHistory ∧
    histChron statsFutureSat.satisfactionHistory ∧
    (updateSatisfaction 3 40 statsFutureSat).satisfactionHistory =
      [SatEntry.mk 5 50, SatEntry.mk 3 40] ∧
    ¬ histChron (updateSatisfaction 3 40 statsFutureSat).satisfactionHistory := by
  refine ⟨by decide, by decide, by decide, by decide, by decide⟩

end LifeQuest
